import Mathlib

/-!
Verification of the arena-combat simulation core (the GameLoop frame
callback of the BotBash application, together with its tuning constants).

The per-frame simulation is shallowly embedded as pure functions over ℚ.
JavaScript numbers are modelled as exact rationals; the transcendental
operations supplied by the host environment (Math.sin, Math.cos,
Math.atan2, the square root used by Vector3.length/distanceTo, Math.PI)
and the two per-entity random draws (weapon auto-on, weapon auto-off)
as well as the per-tick keyboard snapshot are collected in an `Oracle`
record, so every theorem quantifies over the environment.  Positions and
velocities live on the ground plane (x, z); the y component of every
vector in the source is identically 0 and is omitted.  Presentation-only
state (entity colour, string ids, the camera lerp, meshes, HUD) is
outside the simulation state and is not modelled.
-/

namespace Botbash

/-! ## Tuning constants (constants.ts) -/

def ARENA_SIZE : ℚ := 22

def WALL_GAP : ℚ := 5

def ROBOT_RADIUS : ℚ := 4/5

def MAX_ROBOT_HEALTH : ℚ := 100

def MOVE_SPEED : ℚ := 1/125

def ENEMY_SPEED_MULT : ℚ := 2/5

def TURN_SPEED : ℚ := 2/25

def FRICTION : ℚ := 23/25

def KNOCKBACK_FORCE : ℚ := 3/20

def WEAPON_DAMAGE : ℚ := 15

def ENEMY_COUNT : Nat := 3

/-- The exact rational value of the IEEE-754 double `Math.PI`
(884279719003555 · 2⁻⁴⁸), used as a concrete stand-in for the host's π. -/
def MATH_PI : ℚ := 884279719003555/281474976710656

/-- `ARENA_SIZE / 2`, the arena half-size (`halfSize` in the loop body). -/
def halfSize : ℚ := ARENA_SIZE / 2

/-- `halfSize - WALL_GAP`, the half-width of the solid part of each wall
(`wallRange` in the loop body). -/
def wallRange : ℚ := halfSize - WALL_GAP

/-! ## Data model (types.ts) -/

inductive GameState where
  | START
  | PLAYING
  | GAME_OVER
  | VICTORY
  deriving DecidableEq

inductive RobotType where
  | spinner
  | wedge
  | tank
  deriving DecidableEq

/-- Ground-plane vector (the simulation never writes the y component). -/
structure Vec2 where
  x : ℚ
  z : ℚ
  deriving DecidableEq

/-- One robot.  `color` (a render-only string) is omitted and the string
`id` is replaced by a numeric tag; neither is read by the simulation. -/
structure Robot where
  id : Nat
  isPlayer : Bool
  position : Vec2
  velocity : Vec2
  rotation : ℚ
  health : ℚ
  maxHealth : ℚ
  weaponActive : Bool
  isDead : Bool
  type : RobotType
  stunnedUntil : ℚ
  deriving DecidableEq

/-- The per-tick keyboard snapshot (useKeyboard), one flag per game key. -/
structure Keys where
  arrowUp : Bool
  arrowDown : Bool
  arrowLeft : Bool
  arrowRight : Bool
  keyW : Bool
  keyA : Bool
  keyS : Bool
  keyD : Bool
  space : Bool
  deriving DecidableEq

/-- Environment of one tick: the host maths functions, the host π, the
keyboard snapshot, and the two Math.random draws of each robot (indexed
by the robot's place in the entity array): `randWeaponOn i` stands for
`Math.random() < 0.005` in the AI branch and `randWeaponOff i` for
`Math.random() < 0.04` in the weapon-decay pass. -/
structure Oracle where
  sinF : ℚ → ℚ
  cosF : ℚ → ℚ
  atan2F : ℚ → ℚ → ℚ
  sqrtF : ℚ → ℚ
  pi : ℚ
  keys : Keys
  randWeaponOn : Nat → Bool
  randWeaponOff : Nat → Bool

/-! ## Vector operations (the three.js Vector3 subset the loop uses) -/

def vadd (a b : Vec2) : Vec2 := ⟨a.x + b.x, a.z + b.z⟩

def vsub (a b : Vec2) : Vec2 := ⟨a.x - b.x, a.z - b.z⟩

/-- `Vector3.multiplyScalar`. -/
def vscale (c : ℚ) (v : Vec2) : Vec2 := ⟨c * v.x, c * v.z⟩

/-- `Vector3.length`, via the oracle's square root. -/
def vlength (O : Oracle) (v : Vec2) : ℚ := O.sqrtF (v.x * v.x + v.z * v.z)

/-- `Vector3.distanceTo`. -/
def distanceTo (O : Oracle) (a b : Vec2) : ℚ := vlength O (vsub a b)

/-- `Vector3.normalize`, which divides by `length() || 1`: a vector of
length 0 is divided by 1, i.e. returned unchanged. -/
def normalizeV (O : Oracle) (v : Vec2) : Vec2 :=
  let l := vlength O v
  if l = 0 then v else ⟨v.x / l, v.z / l⟩

/-- `Math.sign`. -/
def signQ (q : ℚ) : ℚ := if 0 < q then 1 else if q < 0 then -1 else 0

/-! ## Angle wrapping (the two while loops of the AI steering branch)

`while (diff < -PI) diff += 2 PI; while (diff > PI) diff -= 2 PI;`
Each loop is modelled by a structurally recursive function driven by a
precomputed iteration count that is exactly the number of times the
loop body fires (for a positive π; for π ≤ 0 the source loop would not
terminate, and the model performs no iteration). -/

def wrapLoFuel : Nat → ℚ → ℚ → ℚ
  | 0, _, d => d
  | n + 1, pi, d => if d < -pi then wrapLoFuel n pi (d + 2 * pi) else d

def wrapLoBound (pi d : ℚ) : Nat := (⌈(-pi - d) / (2 * pi)⌉).toNat

/-- The first while loop: add 2π while the difference is below −π. -/
def wrapLo (pi d : ℚ) : ℚ := wrapLoFuel (wrapLoBound pi d) pi d

def wrapHiFuel : Nat → ℚ → ℚ → ℚ
  | 0, _, d => d
  | n + 1, pi, d => if pi < d then wrapHiFuel n pi (d - 2 * pi) else d

def wrapHiBound (pi d : ℚ) : Nat := (⌈(d - pi) / (2 * pi)⌉).toNat

/-- The second while loop: subtract 2π while the difference is above π. -/
def wrapHi (pi d : ℚ) : ℚ := wrapHiFuel (wrapHiBound pi d) pi d

/-- Both wrap loops in source order. -/
def wrapAngle (pi d : ℚ) : ℚ := wrapHi pi (wrapLo pi d)

/-! ## Steering (lines 60–91 of the frame callback) -/

/-- Player steering: fixed turn increments, additive thrust impulses and
the rising-edge weapon trigger.  The two thrust branches share one
`forward` vector that `multiplyScalar` mutates in place, so a reverse
press that follows a forward press in the same tick rescales the
already-scaled vector; the model reproduces that aliasing. -/
def playerSteer (O : Oracle) (bot : Robot) : Robot :=
  let rot0 := bot.rotation + (if O.keys.arrowLeft || O.keys.keyA then TURN_SPEED else 0)
  let rot := rot0 - (if O.keys.arrowRight || O.keys.keyD then TURN_SPEED else 0)
  let forward0 : Vec2 := ⟨O.sinF rot, O.cosF rot⟩
  let goF := O.keys.arrowUp || O.keys.keyW
  let goB := O.keys.arrowDown || O.keys.keyS
  let fwd1 := if goF then vscale MOVE_SPEED forward0 else forward0
  let vel1 := if goF then vadd bot.velocity fwd1 else bot.velocity
  let vel2 := if goB then vadd vel1 (vscale (-MOVE_SPEED) fwd1) else vel1
  let weap := if O.keys.space && !bot.weaponActive then true else bot.weaponActive
  { bot with rotation := rot, velocity := vel2, weaponActive := weap }

/-- AI steering for the robot at array index `i`: bearing to the player,
shortest wrapped angular difference, clamped turn at 30 % of the player
turn rate, thrust only within the 0.5 rad facing tolerance, and the
spinner's random weapon activation. -/
def aiSteer (O : Oracle) (i : Nat) (playerPos : Vec2) (bot : Robot) : Robot :=
  let dirToPlayer := normalizeV O (vsub playerPos bot.position)
  let angleToPlayer := O.atan2F dirToPlayer.x dirToPlayer.z
  let diff := wrapAngle O.pi (angleToPlayer - bot.rotation)
  let rot := bot.rotation + signQ diff * min |diff| (TURN_SPEED * (3/10))
  let vel :=
    if |diff| < 1/2 then
      vadd bot.velocity (vscale (MOVE_SPEED * ENEMY_SPEED_MULT) ⟨O.sinF rot, O.cosF rot⟩)
    else bot.velocity
  let weap := if bot.type = RobotType.spinner ∧ O.randWeaponOn i then true else bot.weaponActive
  { bot with rotation := rot, velocity := vel, weaponActive := weap }

/-- The stun gate: steering runs only when `now >= stunnedUntil`. -/
def steerStage (O : Oracle) (now : ℚ) (playerPos : Vec2) (i : Nat) (bot : Robot) : Robot :=
  if bot.stunnedUntil ≤ now then
    (if bot.isPlayer then playerSteer O bot else aiSteer O i playerPos bot)
  else bot

/-! ## Integration and boundary resolution (lines 93–131) -/

/-- `position.add(velocity); velocity.multiplyScalar(FRICTION)`. -/
def integrate (bot : Robot) : Robot :=
  { bot with
      position := vadd bot.position bot.velocity
      velocity := vscale FRICTION bot.velocity }

/-- X-axis wall check: active only while `|z| < wallRange`; clamps x to
±(halfSize − radius) and multiplies the x velocity by −0.3. -/
def wallX (bot : Robot) : Robot :=
  if |bot.position.z| < wallRange then
    if halfSize - ROBOT_RADIUS < bot.position.x then
      { bot with
          position := ⟨halfSize - ROBOT_RADIUS, bot.position.z⟩
          velocity := ⟨bot.velocity.x * (-(3/10)), bot.velocity.z⟩ }
    else if bot.position.x < -halfSize + ROBOT_RADIUS then
      { bot with
          position := ⟨-halfSize + ROBOT_RADIUS, bot.position.z⟩
          velocity := ⟨bot.velocity.x * (-(3/10)), bot.velocity.z⟩ }
    else bot
  else bot

/-- Z-axis wall check, run after the X check on its output. -/
def wallZ (bot : Robot) : Robot :=
  if |bot.position.x| < wallRange then
    if halfSize - ROBOT_RADIUS < bot.position.z then
      { bot with
          position := ⟨bot.position.x, halfSize - ROBOT_RADIUS⟩
          velocity := ⟨bot.velocity.x, bot.velocity.z * (-(3/10))⟩ }
    else if bot.position.z < -halfSize + ROBOT_RADIUS then
      { bot with
          position := ⟨bot.position.x, -halfSize + ROBOT_RADIUS⟩
          velocity := ⟨bot.velocity.x, bot.velocity.z * (-(3/10))⟩ }
    else bot
  else bot

def resolveWalls (bot : Robot) : Robot := wallZ (wallX bot)

/-- The final pit check: exceeding `halfSize + 0.5` on either axis kills
the robot and zeroes its health. -/
def pitCheck (bot : Robot) : Robot :=
  if halfSize + 1/2 < |bot.position.x| ∨ halfSize + 1/2 < |bot.position.z| then
    { bot with isDead := true, health := 0 }
  else bot

/-- One robot's movement/AI/physics/boundary pass (the body of the
`updatedRobots.forEach` loop): dead robots are skipped entirely. -/
def stepBot (O : Oracle) (now : ℚ) (playerPos : Vec2) (i : Nat) (bot : Robot) : Robot :=
  if bot.isDead then bot
  else pitCheck (resolveWalls (integrate (steerStage O now playerPos i bot)))

/-- The `player.position` value an AI robot reads: the current state of
the first `isPlayer` entity in the (partially updated) array.  `isPlayer`
is never written during a tick, so this is the same object the source
binds before the loop. -/
def playerPosOf (l : List Robot) : Vec2 :=
  match l.find? (fun r => r.isPlayer) with
  | some p => p.position
  | none => ⟨0, 0⟩

/-- Sequential in-place `forEach`: robots already processed are visible
(through the shared player reference) to the robots processed later. -/
def phase1Aux (O : Oracle) (now : ℚ) : Nat → List Robot → List Robot → List Robot
  | _, done, [] => done
  | i, done, b :: rest =>
      let b1 := stepBot O now (playerPosOf (done ++ b :: rest)) i b
      phase1Aux O now (i + 1) (done ++ [b1]) rest

def phase1 (O : Oracle) (now : ℚ) (l : List Robot) : List Robot :=
  phase1Aux O now 0 [] l

/-! ## Pairwise collision resolution (lines 134–174) -/

/-- Resolution of one colliding pair (the body of the nested loops):
overlap separation, knockback, symmetric base damage 1 plus the spinner
weapon bonus to the opponent, clamped health, mutual stun, death flag. -/
def collidePair (O : Oracle) (now : ℚ) (r1 r2 : Robot) : Robot × Robot :=
  if r1.isDead || r2.isDead then (r1, r2)
  else
    let dist := distanceTo O r1.position r2.position
    let minDist := ROBOT_RADIUS * (21/10)
    if dist < minDist then
      let normal := normalizeV O (vsub r1.position r2.position)
      let overlap := minDist - dist
      let p1 := vadd r1.position (vscale (overlap * (2/5)) normal)
      let p2 := vadd r2.position (vscale (-overlap * (2/5)) normal)
      let knock := KNOCKBACK_FORCE
        + (if r1.weaponActive ∧ r1.type = RobotType.spinner then (1/5 : ℚ) else 0)
        + (if r2.weaponActive ∧ r2.type = RobotType.spinner then (1/5 : ℚ) else 0)
      let d1 := 1 + (if r2.weaponActive ∧ r2.type = RobotType.spinner then WEAPON_DAMAGE else 0)
      let d2 := 1 + (if r1.weaponActive ∧ r1.type = RobotType.spinner then WEAPON_DAMAGE else 0)
      let h1 := max 0 (r1.health - d1)
      let h2 := max 0 (r2.health - d2)
      ({ r1 with
           position := p1
           velocity := vadd r1.velocity (vscale knock normal)
           health := h1
           stunnedUntil := now + 1/5
           isDead := if h1 ≤ 0 then true else r1.isDead },
       { r2 with
           position := p2
           velocity := vadd r2.velocity (vscale (-knock) normal)
           health := h2
           stunnedUntil := now + 1/5
           isDead := if h2 ≤ 0 then true else r2.isDead })
    else (r1, r2)

/-- One iteration of the inner collision loop: read the robots at
positions `i` and `j` of the current array, write back both results. -/
def collideStep (O : Oracle) (now : ℚ) (l : List Robot) (i j : Nat) : List Robot :=
  match l[i]?, l[j]? with
  | some a, some b =>
      let p := collidePair O now a b
      (l.set i p.1).set j p.2
  | _, _ => l

/-- The nested pair loops `for i, for j in i+1..n-1`, updating the array
in place so later pairs see the results of earlier ones. -/
def collideAll (O : Oracle) (now : ℚ) (l : List Robot) : List Robot :=
  (List.range l.length).foldl
    (fun acc i =>
      (List.range' (i + 1) (l.length - (i + 1))).foldl
        (fun acc2 j => collideStep O now acc2 i j) acc)
    l

/-! ## Weapon decay pass (lines 185–187) and the full tick -/

def decayBot (O : Oracle) (i : Nat) (bot : Robot) : Robot :=
  if bot.weaponActive && O.randWeaponOff i then { bot with weaponActive := false } else bot

def decayAux (O : Oracle) : Nat → List Robot → List Robot
  | _, [] => []
  | i, b :: rest => decayBot O i b :: decayAux O (i + 1) rest

/-- One frame of the simulation driver (`useFrame` body): the freeze
outside PLAYING, the terminal-state checks on the pre-tick collection,
then movement, collisions and weapon decay.  The camera update is
presentation-only and touches no simulation state. -/
def tick (O : Oracle) (now : ℚ) (gs : GameState) (robots : List Robot) :
    GameState × List Robot :=
  if gs = GameState.PLAYING then
    match robots.find? (fun r => r.isPlayer) with
    | none => (GameState.GAME_OVER, robots)
    | some player =>
      if player.isDead then (GameState.GAME_OVER, robots)
      else if (robots.filter (fun r => !r.isPlayer && !r.isDead)).isEmpty then
        (GameState.VICTORY, robots)
      else
        (GameState.PLAYING, decayAux O 0 (collideAll O now (phase1 O now robots)))
  else (gs, robots)

end Botbash

namespace Botbash

/-! ## Wrap-loop lemmas -/

theorem wrapLoFuel_of_not_lt {n : Nat} {pi d : ℚ} (h : ¬ d < -pi) : wrapLoFuel n pi d = d := by
  cases n with
  | zero => rfl
  | succ n => simp [wrapLoFuel, h]

/-- If the difference is already at least −π the first loop does not fire. -/
theorem wrapLo_of_le {pi d : ℚ} (h : -pi ≤ d) : wrapLo pi d = d :=
  wrapLoFuel_of_not_lt (not_lt.mpr h)

theorem wrapHiFuel_of_not_lt {n : Nat} {pi d : ℚ} (h : ¬ pi < d) : wrapHiFuel n pi d = d := by
  cases n with
  | zero => rfl
  | succ n => simp [wrapHiFuel, h]

/-- If the difference is already at most π the second loop does not fire. -/
theorem wrapHi_of_le {pi d : ℚ} (h : d ≤ pi) : wrapHi pi d = d :=
  wrapHiFuel_of_not_lt (not_lt.mpr h)

/-- A difference already inside [−π, π] passes through the wrap unchanged. -/
theorem wrapAngle_of_mem {pi d : ℚ} (h1 : -pi ≤ d) (h2 : d ≤ pi) : wrapAngle pi d = d := by
  rw [wrapAngle, wrapLo_of_le h1, wrapHi_of_le h2]

/-- The precomputed iteration count is enough: the first loop's result is
at least −π. -/
theorem wrapLoFuel_ge {pi : ℚ} (hpi : 0 < pi) :
    ∀ n d, (⌈(-pi - d) / (2 * pi)⌉).toNat ≤ n → -pi ≤ wrapLoFuel n pi d := by
  intro n
  induction n with
  | zero =>
    intro d hd
    have h0 : (⌈(-pi - d) / (2 * pi)⌉ : ℤ) ≤ 0 := by omega
    have h1 : (-pi - d) / (2 * pi) ≤ 0 := by exact_mod_cast Int.ceil_le.mp h0
    have h2 : -pi - d ≤ 0 := by
      by_contra hc
      have : 0 < (-pi - d) / (2 * pi) := div_pos (by linarith) (by linarith)
      linarith
    simpa [wrapLoFuel] using by linarith
  | succ n ih =>
    intro d hd
    by_cases hlt : d < -pi
    · have hstep : (-pi - (d + 2 * pi)) / (2 * pi) = (-pi - d) / (2 * pi) - 1 := by
        field_simp
        ring
      have hpos : (0 : ℤ) < ⌈(-pi - d) / (2 * pi)⌉ :=
        Int.ceil_pos.mpr (div_pos (by linarith) (by linarith))
      have hb : (⌈(-pi - (d + 2 * pi)) / (2 * pi)⌉).toNat ≤ n := by
        rw [hstep, Int.ceil_sub_one]
        omega
      simpa [wrapLoFuel, hlt] using ih (d + 2 * pi) hb
    · simpa [wrapLoFuel, hlt] using not_lt.mp hlt

theorem wrapLo_ge {pi : ℚ} (hpi : 0 < pi) (d : ℚ) : -pi ≤ wrapLo pi d :=
  wrapLoFuel_ge hpi _ d le_rfl

/-- The first loop either does nothing or lands strictly below π. -/
theorem wrapLoFuel_cases {pi : ℚ} :
    ∀ n d, wrapLoFuel n pi d = d ∨ wrapLoFuel n pi d < pi := by
  intro n
  induction n with
  | zero => intro d; exact Or.inl rfl
  | succ n ih =>
    intro d
    by_cases hlt : d < -pi
    · rcases ih (d + 2 * pi) with h | h
      · right
        simpa [wrapLoFuel, hlt, h] using by linarith
      · right
        simpa [wrapLoFuel, hlt] using h
    · left
      simp [wrapLoFuel, hlt]

/-- The precomputed iteration count is enough: the second loop's result is
at most π. -/
theorem wrapHiFuel_le {pi : ℚ} (hpi : 0 < pi) :
    ∀ n d, (⌈(d - pi) / (2 * pi)⌉).toNat ≤ n → wrapHiFuel n pi d ≤ pi := by
  intro n
  induction n with
  | zero =>
    intro d hd
    have h0 : (⌈(d - pi) / (2 * pi)⌉ : ℤ) ≤ 0 := by omega
    have h1 : (d - pi) / (2 * pi) ≤ 0 := by exact_mod_cast Int.ceil_le.mp h0
    have h2 : d - pi ≤ 0 := by
      by_contra hc
      have : 0 < (d - pi) / (2 * pi) := div_pos (by linarith) (by linarith)
      linarith
    simpa [wrapHiFuel] using by linarith
  | succ n ih =>
    intro d hd
    by_cases hlt : pi < d
    · have hstep : ((d - 2 * pi) - pi) / (2 * pi) = (d - pi) / (2 * pi) - 1 := by
        field_simp
        ring
      have hpos : (0 : ℤ) < ⌈(d - pi) / (2 * pi)⌉ :=
        Int.ceil_pos.mpr (div_pos (by linarith) (by linarith))
      have hb : (⌈((d - 2 * pi) - pi) / (2 * pi)⌉).toNat ≤ n := by
        rw [hstep, Int.ceil_sub_one]
        omega
      simpa [wrapHiFuel, hlt] using ih (d - 2 * pi) hb
    · simpa [wrapHiFuel, hlt] using not_lt.mp hlt

theorem wrapHi_le {pi : ℚ} (hpi : 0 < pi) (d : ℚ) : wrapHi pi d ≤ pi :=
  wrapHiFuel_le hpi _ d le_rfl

/-- The second loop either does nothing or lands strictly above −π. -/
theorem wrapHiFuel_cases {pi : ℚ} :
    ∀ n d, wrapHiFuel n pi d = d ∨ -pi < wrapHiFuel n pi d := by
  intro n
  induction n with
  | zero => intro d; exact Or.inl rfl
  | succ n ih =>
    intro d
    by_cases hlt : pi < d
    · rcases ih (d - 2 * pi) with h | h
      · right
        simpa [wrapHiFuel, hlt, h] using by linarith
      · right
        simpa [wrapHiFuel, hlt] using h
    · left
      simp [wrapHiFuel, hlt]

/-- Range of the source wrap: the closed interval [−π, π].  Both ends are
attained (`wrapAngle pi (-pi) = -pi` and `wrapAngle pi pi = pi`). -/
theorem wrapAngle_mem {pi : ℚ} (hpi : 0 < pi) (d : ℚ) :
    -pi ≤ wrapAngle pi d ∧ wrapAngle pi d ≤ pi := by
  have hlo : -pi ≤ wrapLo pi d := wrapLo_ge hpi d
  constructor
  · rcases @wrapHiFuel_cases pi (wrapHiBound pi (wrapLo pi d)) (wrapLo pi d) with h | h
    · rw [wrapAngle, wrapHi, h]
      exact hlo
    · exact le_of_lt (by rw [wrapAngle, wrapHi]; exact h)
  · exact wrapHi_le hpi _

end Botbash

namespace Botbash

/-! ## Which stages touch health

Steering, integration and the wall checks never write `health` or
`maxHealth`; the pit check writes `health := 0`; a collision writes
`health := max 0 (health - damage)`.  `HRel a b` records the resulting
per-robot fact used by the invariant claims: starting from a nonnegative
health, one tick can only keep health nonnegative, never increase it,
and never touch `maxHealth`. -/

theorem playerSteer_health (O : Oracle) (b : Robot) : (playerSteer O b).health = b.health := rfl

theorem aiSteer_health (O : Oracle) (i : Nat) (p : Vec2) (b : Robot) :
    (aiSteer O i p b).health = b.health := rfl

theorem steerStage_health (O : Oracle) (now : ℚ) (p : Vec2) (i : Nat) (b : Robot) :
    (steerStage O now p i b).health = b.health := by
  unfold steerStage
  split
  · split
    · rfl
    · rfl
  · rfl

theorem integrate_health (b : Robot) : (integrate b).health = b.health := rfl

theorem wallX_health (b : Robot) : (wallX b).health = b.health := by
  unfold wallX
  split
  · split
    · rfl
    · split
      · rfl
      · rfl
  · rfl

theorem wallZ_health (b : Robot) : (wallZ b).health = b.health := by
  unfold wallZ
  split
  · split
    · rfl
    · split
      · rfl
      · rfl
  · rfl

theorem playerSteer_maxHealth (O : Oracle) (b : Robot) :
    (playerSteer O b).maxHealth = b.maxHealth := rfl

theorem aiSteer_maxHealth (O : Oracle) (i : Nat) (p : Vec2) (b : Robot) :
    (aiSteer O i p b).maxHealth = b.maxHealth := rfl

theorem steerStage_maxHealth (O : Oracle) (now : ℚ) (p : Vec2) (i : Nat) (b : Robot) :
    (steerStage O now p i b).maxHealth = b.maxHealth := by
  unfold steerStage
  split
  · split
    · rfl
    · rfl
  · rfl

theorem integrate_maxHealth (b : Robot) : (integrate b).maxHealth = b.maxHealth := rfl

theorem wallX_maxHealth (b : Robot) : (wallX b).maxHealth = b.maxHealth := by
  unfold wallX
  split
  · split
    · rfl
    · split
      · rfl
      · rfl
  · rfl

theorem wallZ_maxHealth (b : Robot) : (wallZ b).maxHealth = b.maxHealth := by
  unfold wallZ
  split
  · split
    · rfl
    · split
      · rfl
      · rfl
  · rfl

theorem pitCheck_health_cases (b : Robot) :
    (pitCheck b).health = b.health ∨ (pitCheck b).health = 0 := by
  unfold pitCheck
  split
  · exact Or.inr rfl
  · exact Or.inl rfl

theorem pitCheck_maxHealth (b : Robot) : (pitCheck b).maxHealth = b.maxHealth := by
  unfold pitCheck
  split
  · rfl
  · rfl

theorem stepBot_health_cases (O : Oracle) (now : ℚ) (p : Vec2) (i : Nat) (b : Robot) :
    ((stepBot O now p i b).health = b.health ∨ (stepBot O now p i b).health = 0)
      ∧ (stepBot O now p i b).maxHealth = b.maxHealth := by
  unfold stepBot
  split
  · exact ⟨Or.inl rfl, rfl⟩
  · constructor
    · rcases pitCheck_health_cases (resolveWalls (integrate (steerStage O now p i b))) with h | h
      · left
        rw [h, resolveWalls, wallZ_health, wallX_health, integrate_health, steerStage_health]
      · exact Or.inr h
    · rw [pitCheck_maxHealth, resolveWalls, wallZ_maxHealth, wallX_maxHealth,
        integrate_maxHealth, steerStage_maxHealth]

/-- Per-robot health evolution over (any part of) one tick. -/
def HRel (a b : Robot) : Prop :=
  0 ≤ a.health → 0 ≤ b.health ∧ b.health ≤ a.health ∧ b.maxHealth = a.maxHealth

theorem hrel_refl (a : Robot) : HRel a a := fun h => ⟨h, le_rfl, rfl⟩

theorem hrel_trans {a b c : Robot} (h1 : HRel a b) (h2 : HRel b c) : HRel a c := by
  intro h0
  obtain ⟨x1, x2, x3⟩ := h1 h0
  obtain ⟨y1, y2, y3⟩ := h2 x1
  exact ⟨y1, y2.trans x2, y3.trans x3⟩

theorem forall2_hrel_refl (l : List Robot) : List.Forall₂ HRel l l :=
  List.forall₂_same.mpr fun x _ => hrel_refl x

theorem forall2_hrel_trans :
    ∀ {l1 l2 l3 : List Robot},
      List.Forall₂ HRel l1 l2 → List.Forall₂ HRel l2 l3 → List.Forall₂ HRel l1 l3 := by
  intro l1 l2 l3 h1
  induction h1 generalizing l3 with
  | nil =>
    intro h2
    cases h2
    exact List.Forall₂.nil
  | cons h t ih =>
    intro h2
    cases h2 with
    | cons h2a h2b => exact List.Forall₂.cons (hrel_trans h h2a) (ih h2b)

theorem hrel_stepBot (O : Oracle) (now : ℚ) (p : Vec2) (i : Nat) (b : Robot) :
    HRel b (stepBot O now p i b) := by
  intro h0
  obtain ⟨hh, hm⟩ := stepBot_health_cases O now p i b
  rcases hh with h | h
  · exact ⟨h ▸ h0, h.le, hm⟩
  · exact ⟨h ▸ le_rfl, h ▸ h0, hm⟩

theorem forall2_hrel_phase1Aux (O : Oracle) (now : ℚ) :
    ∀ (l done : List Robot) (i : Nat),
      List.Forall₂ HRel (done ++ l) (phase1Aux O now i done l) := by
  intro l
  induction l with
  | nil =>
    intro done i
    simpa [phase1Aux] using forall2_hrel_refl done
  | cons b rest ih =>
    intro done i
    have hstep :
        List.Forall₂ HRel (done ++ b :: rest)
          (done ++ stepBot O now (playerPosOf (done ++ b :: rest)) i b :: rest) :=
      List.rel_append (forall2_hrel_refl done)
        (List.Forall₂.cons (hrel_stepBot O now _ i b) (forall2_hrel_refl rest))
    have htail := ih (done ++ [stepBot O now (playerPosOf (done ++ b :: rest)) i b]) (i + 1)
    rw [List.append_assoc, List.singleton_append] at htail
    exact forall2_hrel_trans hstep (by simpa [phase1Aux] using htail)

theorem forall2_hrel_phase1 (O : Oracle) (now : ℚ) (l : List Robot) :
    List.Forall₂ HRel l (phase1 O now l) := by
  simpa [phase1] using forall2_hrel_phase1Aux O now l [] 0

end Botbash

namespace Botbash

theorem max_sub_mem {h d : ℚ} (h0 : 0 ≤ h) (hd : 0 ≤ d) :
    0 ≤ max 0 (h - d) ∧ max 0 (h - d) ≤ h :=
  ⟨le_max_left 0 _, max_le h0 (by linarith)⟩

theorem hrel_collidePair_fst (O : Oracle) (now : ℚ) (r1 r2 : Robot) :
    HRel r1 (collidePair O now r1 r2).1 := by
  rw [collidePair]
  split
  · exact hrel_refl r1
  · dsimp only
    split
    · intro h0
      have hd : (0 : ℚ) ≤ 1 + (if r2.weaponActive = true ∧ r2.type = RobotType.spinner
          then WEAPON_DAMAGE else 0) := by
        split
        · norm_num [WEAPON_DAMAGE]
        · norm_num
      exact ⟨(max_sub_mem h0 hd).1, (max_sub_mem h0 hd).2, rfl⟩
    · exact hrel_refl r1

theorem hrel_collidePair_snd (O : Oracle) (now : ℚ) (r1 r2 : Robot) :
    HRel r2 (collidePair O now r1 r2).2 := by
  rw [collidePair]
  split
  · exact hrel_refl r2
  · dsimp only
    split
    · intro h0
      have hd : (0 : ℚ) ≤ 1 + (if r1.weaponActive = true ∧ r1.type = RobotType.spinner
          then WEAPON_DAMAGE else 0) := by
        split
        · norm_num [WEAPON_DAMAGE]
        · norm_num
      exact ⟨(max_sub_mem h0 hd).1, (max_sub_mem h0 hd).2, rfl⟩
    · exact hrel_refl r2

theorem forall2_hrel_set :
    ∀ (l : List Robot) (i : Nat) (v : Robot),
      (∀ a, l[i]? = some a → HRel a v) → List.Forall₂ HRel l (l.set i v) := by
  intro l
  induction l with
  | nil =>
    intro i v _
    exact List.Forall₂.nil
  | cons a t ih =>
    intro i v h
    cases i with
    | zero =>
      exact List.Forall₂.cons (h a (by simp)) (forall2_hrel_refl t)
    | succ n =>
      exact List.Forall₂.cons (hrel_refl a) (ih n v (fun x hx => h x (by simpa using hx)))

theorem forall2_hrel_collideStep (O : Oracle) (now : ℚ) (l : List Robot) (i j : Nat)
    (hij : i ≠ j) : List.Forall₂ HRel l (collideStep O now l i j) := by
  unfold collideStep
  rcases hi : l[i]? with _ | a
  · rcases hj : l[j]? with _ | b
    · exact forall2_hrel_refl l
    · exact forall2_hrel_refl l
  · rcases hj : l[j]? with _ | b
    · exact forall2_hrel_refl l
    · have h1 : List.Forall₂ HRel l (l.set i (collidePair O now a b).1) := by
        refine forall2_hrel_set l i _ (fun x hx => ?_)
        rw [hi] at hx
        cases hx
        exact hrel_collidePair_fst O now a b
      have h2 : List.Forall₂ HRel (l.set i (collidePair O now a b).1)
          ((l.set i (collidePair O now a b).1).set j (collidePair O now a b).2) := by
        refine forall2_hrel_set _ j _ (fun x hx => ?_)
        rw [List.getElem?_set_ne hij, hj] at hx
        cases hx
        exact hrel_collidePair_snd O now a b
      exact forall2_hrel_trans h1 h2

theorem forall2_hrel_foldl {α : Type} (f : List Robot → α → List Robot) :
    ∀ (xs : List α) (acc : List Robot),
      (∀ acc2 x, x ∈ xs → List.Forall₂ HRel acc2 (f acc2 x)) →
      List.Forall₂ HRel acc (xs.foldl f acc) := by
  intro xs
  induction xs with
  | nil =>
    intro acc _
    exact forall2_hrel_refl acc
  | cons x t ih =>
    intro acc h
    exact forall2_hrel_trans (h acc x (by simp))
      (ih (f acc x) (fun a y hy => h a y (by simp [hy])))

theorem forall2_hrel_collideAll (O : Oracle) (now : ℚ) (l : List Robot) :
    List.Forall₂ HRel l (collideAll O now l) := by
  unfold collideAll
  refine forall2_hrel_foldl _ _ _ (fun acc i _ => ?_)
  refine forall2_hrel_foldl _ _ _ (fun acc2 j hj => ?_)
  have hij : i + 1 ≤ j := (List.mem_range'_1.mp hj).1
  exact forall2_hrel_collideStep O now acc2 i j (by omega)

theorem decayBot_health (O : Oracle) (i : Nat) (b : Robot) :
    (decayBot O i b).health = b.health := by
  unfold decayBot
  split
  · rfl
  · rfl

theorem decayBot_maxHealth (O : Oracle) (i : Nat) (b : Robot) :
    (decayBot O i b).maxHealth = b.maxHealth := by
  unfold decayBot
  split
  · rfl
  · rfl

theorem forall2_hrel_decayAux (O : Oracle) :
    ∀ (l : List Robot) (i : Nat), List.Forall₂ HRel l (decayAux O i l) := by
  intro l
  induction l with
  | nil =>
    intro i
    exact List.Forall₂.nil
  | cons b t ih =>
    intro i
    refine List.Forall₂.cons (fun h0 => ?_) (ih (i + 1))
    rw [decayBot_health, decayBot_maxHealth]
    exact ⟨h0, le_rfl, rfl⟩

/-- Master health lemma: over one full tick every robot's health stays
nonnegative, does not increase, and keeps its `maxHealth`. -/
theorem forall2_hrel_tick (O : Oracle) (now : ℚ) (gs : GameState) (robots : List Robot) :
    List.Forall₂ HRel robots (tick O now gs robots).2 := by
  unfold tick
  split
  · cases hf : robots.find? (fun r => r.isPlayer) with
    | none => exact forall2_hrel_refl robots
    | some p =>
      dsimp only
      split
      · exact forall2_hrel_refl robots
      · split
        · exact forall2_hrel_refl robots
        · exact forall2_hrel_trans (forall2_hrel_phase1 O now robots)
            (forall2_hrel_trans (forall2_hrel_collideAll O now (phase1 O now robots))
              (forall2_hrel_decayAux O (collideAll O now (phase1 O now robots)) 0))
  · exact forall2_hrel_refl robots

end Botbash

namespace Botbash

/-! ## Shared concrete fixtures for witnesses and counterexamples -/

def noKeys : Keys :=
  { arrowUp := false, arrowDown := false, arrowLeft := false, arrowRight := false,
    keyW := false, keyA := false, keyS := false, keyD := false, space := false }

def trivOracle : Oracle :=
  { sinF := fun _ => 0, cosF := fun _ => 0, atan2F := fun _ _ => 0, sqrtF := fun _ => 0,
    pi := 0, keys := noKeys, randWeaponOn := fun _ => false, randWeaponOff := fun _ => false }

def wPlayer : Robot :=
  { id := 0, isPlayer := true, position := ⟨0, 0⟩, velocity := ⟨0, 0⟩, rotation := 0,
    health := 100, maxHealth := 100, weaponActive := false, isDead := false,
    type := RobotType.spinner, stunnedUntil := 0 }

def wEnemy : Robot :=
  { id := 1, isPlayer := false, position := ⟨1, 0⟩, velocity := ⟨0, 0⟩, rotation := 0,
    health := 100, maxHealth := 100, weaponActive := false, isDead := false,
    type := RobotType.tank, stunnedUntil := 0 }

/-- C2: for every tick and every entity, health stays within
[0, maxHealth]: if every robot enters the tick with health in range, then
after steering, integration, boundary resolution and collision resolution
every robot's health is nonnegative and at most its (unchanged)
creation-time maximum. -/
theorem C2_health_bounds (O : Oracle) (now : ℚ) (gs : GameState) (robots : List Robot)
    (h : ∀ r ∈ robots, 0 ≤ r.health ∧ r.health ≤ r.maxHealth) :
    ∀ r2 ∈ (tick O now gs robots).2, 0 ≤ r2.health ∧ r2.health ≤ r2.maxHealth := by
  rcases List.forall₂_iff_get.mp (forall2_hrel_tick O now gs robots) with ⟨hlen, hg⟩
  intro r2 hr2
  obtain ⟨⟨i, hi⟩, rfl⟩ := List.mem_iff_get.mp hr2
  have hi1 : i < robots.length := by omega
  obtain ⟨ha, hb, hc⟩ := hg i hi1 hi ((h _ (List.get_mem robots i hi1)).1)
  refine ⟨ha, hb.trans ?_⟩
  rw [hc]
  exact (h _ (List.get_mem robots i hi1)).2

theorem C2_health_bounds_witness :
    (∀ r ∈ [wPlayer, wEnemy], 0 ≤ r.health ∧ r.health ≤ r.maxHealth)
    ∧ ∀ r2 ∈ (tick trivOracle 0 GameState.PLAYING [wPlayer, wEnemy]).2,
        0 ≤ r2.health ∧ r2.health ≤ r2.maxHealth :=
  ⟨by norm_num [List.forall_mem_cons, wPlayer, wEnemy],
   C2_health_bounds trivOracle 0 GameState.PLAYING [wPlayer, wEnemy]
     (by norm_num [List.forall_mem_cons, wPlayer, wEnemy])⟩

/-- C10: health never increases across a tick: entering a tick with
nonnegative healths (the reachable states), every robot's post-tick
health is bounded by its pre-tick health, position-wise along the
collection. -/
theorem C10_health_monotone (O : Oracle) (now : ℚ) (gs : GameState) (robots : List Robot)
    (h : ∀ r ∈ robots, 0 ≤ r.health) :
    List.Forall₂ (fun a b => b.health ≤ a.health) robots (tick O now gs robots).2 := by
  rcases List.forall₂_iff_get.mp (forall2_hrel_tick O now gs robots) with ⟨hlen, hg⟩
  refine List.forall₂_iff_get.mpr ⟨hlen, fun i h1 h2 => ?_⟩
  exact (hg i h1 h2 (h _ (List.get_mem robots i h1))).2.1

theorem C10_health_monotone_witness :
    (∀ r ∈ [wPlayer, wEnemy], 0 ≤ r.health)
    ∧ List.Forall₂ (fun a b => b.health ≤ a.health) [wPlayer, wEnemy]
        (tick trivOracle 0 GameState.PLAYING [wPlayer, wEnemy]).2 :=
  ⟨by norm_num [List.forall_mem_cons, wPlayer, wEnemy],
   C10_health_monotone trivOracle 0 GameState.PLAYING [wPlayer, wEnemy]
     (by norm_num [List.forall_mem_cons, wPlayer, wEnemy])⟩

/-- C5: a single match-state value can never be Lost (GAME_OVER) and Won
(VICTORY) at the same time, and in either terminal state a tick is a
total freeze: it returns the state and the entity collection unchanged
(mutation resumes only after an explicit reset rebuilds the collection). -/
theorem C5_terminal_freeze :
    (∀ gs : GameState, ¬(gs = GameState.GAME_OVER ∧ gs = GameState.VICTORY))
    ∧ ∀ (O : Oracle) (now : ℚ) (gs : GameState) (robots : List Robot),
        gs = GameState.GAME_OVER ∨ gs = GameState.VICTORY →
        tick O now gs robots = (gs, robots) := by
  constructor
  · rintro gs ⟨h1, h2⟩
    rw [h1] at h2
    exact GameState.noConfusion h2
  · intro O now gs robots h
    rcases h with h | h <;> subst h <;> rfl

theorem C5_terminal_freeze_witness :
    (GameState.VICTORY = GameState.GAME_OVER ∨ GameState.VICTORY = GameState.VICTORY)
    ∧ ¬(GameState.GAME_OVER = GameState.GAME_OVER ∧ GameState.GAME_OVER = GameState.VICTORY)
    ∧ tick trivOracle 0 GameState.VICTORY [wPlayer] = (GameState.VICTORY, [wPlayer]) :=
  ⟨Or.inr rfl, C5_terminal_freeze.1 GameState.GAME_OVER,
   C5_terminal_freeze.2 trivOracle 0 GameState.VICTORY [wPlayer] (Or.inr rfl)⟩

/-- C8: if at the start of a tick the player entity is missing from the
collection or is dead, the tick transitions to GAME_OVER and returns the
collection untouched: no steering, integration or collision work is
published for that tick. -/
theorem C8_missing_player (O : Oracle) (now : ℚ) (robots : List Robot)
    (h : robots.find? (fun r => r.isPlayer) = none
        ∨ ∃ p, robots.find? (fun r => r.isPlayer) = some p ∧ p.isDead = true) :
    tick O now GameState.PLAYING robots = (GameState.GAME_OVER, robots) := by
  rcases h with h | ⟨p, hp, hd⟩
  · simp [tick, h]
  · simp [tick, hp, hd]

theorem C8_missing_player_witness :
    ((List.nil : List Robot).find? (fun r => r.isPlayer) = none
      ∨ ∃ p, (List.nil : List Robot).find? (fun r => r.isPlayer) = some p ∧ p.isDead = true)
    ∧ tick trivOracle 0 GameState.PLAYING [] = (GameState.GAME_OVER, []) :=
  ⟨Or.inl rfl, C8_missing_player trivOracle 0 [] (Or.inl rfl)⟩

end Botbash

namespace Botbash

theorem wallZ_position_x (b : Robot) : (wallZ b).position.x = b.position.x := by
  unfold wallZ
  split
  · split
    · rfl
    · split
      · rfl
      · rfl
  · rfl

theorem wallZ_velocity_x (b : Robot) : (wallZ b).velocity.x = b.velocity.x := by
  unfold wallZ
  split
  · split
    · rfl
    · split
      · rfl
      · rfl
  · rfl

theorem hRadNonneg : (0 : ℚ) ≤ halfSize - ROBOT_RADIUS := by
  norm_num [halfSize, ROBOT_RADIUS, ARENA_SIZE]

theorem wallX_x_bound (b : Robot) (hz : |b.position.z| < wallRange) :
    |(wallX b).position.x| ≤ halfSize - ROBOT_RADIUS := by
  unfold wallX
  rw [if_pos hz]
  by_cases h1 : halfSize - ROBOT_RADIUS < b.position.x
  · rw [if_pos h1]
    dsimp
    rw [abs_le]
    constructor
    · linarith [hRadNonneg]
    · exact le_rfl
  · rw [if_neg h1]
    by_cases h2 : b.position.x < -halfSize + ROBOT_RADIUS
    · rw [if_pos h2]
      dsimp
      rw [abs_le]
      constructor
      · linarith [hRadNonneg]
      · linarith [hRadNonneg]
    · rw [if_neg h2, abs_le]
      exact ⟨by linarith [not_lt.mp h2], not_lt.mp h1⟩

end Botbash

namespace Botbash

theorem wallX_eq_self_of_abs_le (b : Robot) (hx : |b.position.x| ≤ halfSize - ROBOT_RADIUS) :
    wallX b = b := by
  obtain ⟨hx1, hx2⟩ := abs_le.mp hx
  unfold wallX
  split
  · rw [if_neg (not_lt.mpr hx2), if_neg (not_lt.mpr (by linarith))]
  · rfl

theorem wallZ_z_bound (b : Robot) (hx : |b.position.x| < wallRange) :
    |(wallZ b).position.z| ≤ halfSize - ROBOT_RADIUS := by
  unfold wallZ
  rw [if_pos hx]
  by_cases h1 : halfSize - ROBOT_RADIUS < b.position.z
  · rw [if_pos h1]
    dsimp
    rw [abs_le]
    exact ⟨by linarith [hRadNonneg], le_rfl⟩
  · rw [if_neg h1]
    by_cases h2 : b.position.z < -halfSize + ROBOT_RADIUS
    · rw [if_pos h2]
      dsimp
      rw [abs_le]
      exact ⟨by linarith [hRadNonneg], by linarith [hRadNonneg]⟩
    · rw [if_neg h2, abs_le]
      exact ⟨by linarith [not_lt.mp h2], not_lt.mp h1⟩

theorem wallRange_le_hRad : wallRange ≤ halfSize - ROBOT_RADIUS := by
  norm_num [wallRange, halfSize, ROBOT_RADIUS, ARENA_SIZE, WALL_GAP]

/-- C4: after boundary resolution, an entity whose pre-resolution
coordinate on one axis lies in the solid-wall region (|other-axis| <
wallRange = H - G) has its constrained-axis coordinate within
H - radius in absolute value, for any single-tick velocity; and where a
clamp applies, the position is set to exactly the boundary and the
corresponding velocity component is multiplied by the fixed factor
-0.3. -/
theorem C4_wall_containment (bot : Robot) :
    ((|bot.position.z| < wallRange → |(resolveWalls bot).position.x| ≤ halfSize - ROBOT_RADIUS)
    ∧ (|bot.position.x| < wallRange → |(resolveWalls bot).position.z| ≤ halfSize - ROBOT_RADIUS))
    ∧ ((|bot.position.z| < wallRange → halfSize - ROBOT_RADIUS < bot.position.x →
          (resolveWalls bot).position.x = halfSize - ROBOT_RADIUS
          ∧ (resolveWalls bot).velocity.x = bot.velocity.x * (-(3/10)))
    ∧ (|bot.position.z| < wallRange → bot.position.x < -halfSize + ROBOT_RADIUS →
          (resolveWalls bot).position.x = -halfSize + ROBOT_RADIUS
          ∧ (resolveWalls bot).velocity.x = bot.velocity.x * (-(3/10)))
    ∧ (|bot.position.x| < wallRange → halfSize - ROBOT_RADIUS < bot.position.z →
          (resolveWalls bot).position.z = halfSize - ROBOT_RADIUS
          ∧ (resolveWalls bot).velocity.z = bot.velocity.z * (-(3/10)))
    ∧ (|bot.position.x| < wallRange → bot.position.z < -halfSize + ROBOT_RADIUS →
          (resolveWalls bot).position.z = -halfSize + ROBOT_RADIUS
          ∧ (resolveWalls bot).velocity.z = bot.velocity.z * (-(3/10)))) := by
  constructor
  · constructor
    · intro hz
      rw [resolveWalls, wallZ_position_x]
      exact wallX_x_bound bot hz
    · intro hx
      rw [resolveWalls, wallX_eq_self_of_abs_le bot (hx.le.trans wallRange_le_hRad)]
      exact wallZ_z_bound bot hx
  · refine ⟨fun hz h1 => ?_, fun hz h2 => ?_, fun hx h3 => ?_, fun hx h4 => ?_⟩
    · have e1 : wallX bot =
          { bot with
              position := ⟨halfSize - ROBOT_RADIUS, bot.position.z⟩
              velocity := ⟨bot.velocity.x * (-(3/10)), bot.velocity.z⟩ } := by
        unfold wallX
        rw [if_pos hz, if_pos h1]
      have e2 : resolveWalls bot = wallZ (wallX bot) := rfl
      rw [e2, e1]
      have hgate : ¬ |({ bot with
          position := (⟨halfSize - ROBOT_RADIUS, bot.position.z⟩ : Vec2)
          velocity := (⟨bot.velocity.x * (-(3/10)), bot.velocity.z⟩ : Vec2) } : Robot).position.x|
          < wallRange := by
        dsimp
        rw [abs_of_nonneg hRadNonneg]
        norm_num [halfSize, ROBOT_RADIUS, ARENA_SIZE, wallRange, WALL_GAP]
      rw [wallZ, if_neg hgate]
      exact ⟨rfl, rfl⟩
    · have e1 : wallX bot =
          { bot with
              position := ⟨-halfSize + ROBOT_RADIUS, bot.position.z⟩
              velocity := ⟨bot.velocity.x * (-(3/10)), bot.velocity.z⟩ } := by
        unfold wallX
        rw [if_pos hz, if_neg (not_lt.mpr (by linarith [hRadNonneg])), if_pos h2]
      rw [resolveWalls, e1]
      have hgate : ¬ |({ bot with
          position := (⟨-halfSize + ROBOT_RADIUS, bot.position.z⟩ : Vec2)
          velocity := (⟨bot.velocity.x * (-(3/10)), bot.velocity.z⟩ : Vec2) } : Robot).position.x|
          < wallRange := by
        dsimp
        intro hcon
        rw [abs_lt] at hcon
        obtain ⟨ha, _⟩ := hcon
        norm_num [halfSize, ROBOT_RADIUS, ARENA_SIZE, wallRange, WALL_GAP] at ha
      rw [wallZ, if_neg hgate]
      exact ⟨rfl, rfl⟩
    · rw [resolveWalls, wallX_eq_self_of_abs_le bot (hx.le.trans wallRange_le_hRad)]
      unfold wallZ
      rw [if_pos hx, if_pos h3]
      exact ⟨rfl, rfl⟩
    · rw [resolveWalls, wallX_eq_self_of_abs_le bot (hx.le.trans wallRange_le_hRad)]
      unfold wallZ
      rw [if_pos hx, if_neg (not_lt.mpr (by linarith [hRadNonneg])), if_pos h4]
      exact ⟨rfl, rfl⟩

end Botbash

namespace Botbash

def wWall : Robot :=
  { id := 2, isPlayer := false, position := ⟨12, 0⟩, velocity := ⟨1, 0⟩, rotation := 0,
    health := 100, maxHealth := 100, weaponActive := false, isDead := false,
    type := RobotType.wedge, stunnedUntil := 0 }

theorem C4_wall_containment_witness :
    |wWall.position.z| < wallRange
    ∧ halfSize - ROBOT_RADIUS < wWall.position.x
    ∧ (resolveWalls wWall).position.x = halfSize - ROBOT_RADIUS
    ∧ (resolveWalls wWall).velocity.x = wWall.velocity.x * (-(3/10)) := by
  have h1 : |wWall.position.z| < wallRange := by
    norm_num [wWall, wallRange, halfSize, ARENA_SIZE, WALL_GAP]
  have h2 : halfSize - ROBOT_RADIUS < wWall.position.x := by
    norm_num [wWall, halfSize, ARENA_SIZE, ROBOT_RADIUS]
  exact ⟨h1, h2, ((C4_wall_containment wWall).2.1 h1 h2).1,
    ((C4_wall_containment wWall).2.1 h1 h2).2⟩

/-- C3: an entity that is not already dead and whose position after
integration and boundary resolution exceeds H + 0.5 in absolute value on
either axis is marked dead with health forced to 0 in that same tick,
with no hypothesis on its prior health or stun state. -/
theorem C3_pit_death (O : Oracle) (now : ℚ) (pPos : Vec2) (i : Nat) (bot mid : Robot)
    (hdead : bot.isDead = false)
    (hmid : mid = resolveWalls (integrate (steerStage O now pPos i bot)))
    (hout : halfSize + 1/2 < |mid.position.x| ∨ halfSize + 1/2 < |mid.position.z|) :
    (stepBot O now pPos i bot).isDead = true ∧ (stepBot O now pPos i bot).health = 0 := by
  have hstep : stepBot O now pPos i bot = pitCheck mid := by
    rw [hmid]
    unfold stepBot
    simp [hdead]
  rw [hstep]
  unfold pitCheck
  rw [if_pos hout]
  exact ⟨rfl, rfl⟩

/-- A robot that flew through the corner gap: beyond the arena on x while
inside the gap band on z, so neither wall clamp applies. -/
def wOut : Robot :=
  { id := 3, isPlayer := false, position := ⟨20, 7⟩, velocity := ⟨0, 0⟩, rotation := 0,
    health := 100, maxHealth := 100, weaponActive := false, isDead := false,
    type := RobotType.tank, stunnedUntil := 1 }

theorem C3_pit_death_witness :
    wOut.isDead = false
    ∧ (halfSize + 1/2 <
        |(resolveWalls (integrate (steerStage trivOracle 0 ⟨0, 0⟩ 1 wOut))).position.x|
      ∨ halfSize + 1/2 <
        |(resolveWalls (integrate (steerStage trivOracle 0 ⟨0, 0⟩ 1 wOut))).position.z|)
    ∧ (stepBot trivOracle 0 ⟨0, 0⟩ 1 wOut).isDead = true
    ∧ (stepBot trivOracle 0 ⟨0, 0⟩ 1 wOut).health = 0 := by
  have hout : halfSize + 1/2 <
        |(resolveWalls (integrate (steerStage trivOracle 0 ⟨0, 0⟩ 1 wOut))).position.x|
      ∨ halfSize + 1/2 <
        |(resolveWalls (integrate (steerStage trivOracle 0 ⟨0, 0⟩ 1 wOut))).position.z| := by
    left
    norm_num [resolveWalls, integrate, steerStage, wallX, wallZ, wOut, vadd, vscale,
      halfSize, wallRange, ARENA_SIZE, WALL_GAP, ROBOT_RADIUS]
  exact ⟨rfl, hout, C3_pit_death trivOracle 0 ⟨0, 0⟩ 1 wOut _ rfl rfl hout⟩

end Botbash

namespace Botbash

/-- The damage one robot takes from a collision with `opponent`:
the base contact damage 1 plus WEAPON_DAMAGE when the opponent is a
spinner with its weapon active (the `d1`/`d2` of lines 153-159). -/
def damageFrom (opponent : Robot) : ℚ :=
  1 + (if opponent.weaponActive = true ∧ opponent.type = RobotType.spinner
    then WEAPON_DAMAGE else 0)

/-- C1 (amended): for a collision between two alive entities (distance
below 2.1 x radius), each entity's health becomes
max 0 (health - d) where its d is the base contact damage 1 plus
WEAPON_DAMAGE (15) exactly when the *other* entity is a Spinner with
weaponActive (so a spinner's own loss ignores its own weapon state), and
both get stunnedUntil = now + 0.2.  Whenever health is at least d the
loss is exactly d; the floor clamp at 0 truncates it otherwise. -/
theorem C1_collision_damage_amended (O : Oracle) (now : ℚ) (r1 r2 : Robot)
    (h1 : r1.isDead = false) (h2 : r2.isDead = false)
    (hhit : distanceTo O r1.position r2.position < ROBOT_RADIUS * (21/10)) :
    (collidePair O now r1 r2).1.health = max 0 (r1.health - damageFrom r2)
    ∧ (collidePair O now r1 r2).2.health = max 0 (r2.health - damageFrom r1)
    ∧ (collidePair O now r1 r2).1.stunnedUntil = now + 1/5
    ∧ (collidePair O now r1 r2).2.stunnedUntil = now + 1/5
    ∧ (damageFrom r2 ≤ r1.health →
        r1.health - (collidePair O now r1 r2).1.health = damageFrom r2)
    ∧ (damageFrom r1 ≤ r2.health →
        r2.health - (collidePair O now r1 r2).2.health = damageFrom r1) := by
  have hc : (r1.isDead || r2.isDead) = false := by rw [h1, h2]; rfl
  have key : (collidePair O now r1 r2).1.health = max 0 (r1.health - damageFrom r2)
      ∧ (collidePair O now r1 r2).2.health = max 0 (r2.health - damageFrom r1)
      ∧ (collidePair O now r1 r2).1.stunnedUntil = now + 1/5
      ∧ (collidePair O now r1 r2).2.stunnedUntil = now + 1/5 := by
    unfold collidePair
    rw [hc]
    dsimp only [Bool.false_eq_true, if_false]
    rw [if_pos hhit]
    exact ⟨rfl, rfl, rfl, rfl⟩
  refine ⟨key.1, key.2.1, key.2.2.1, key.2.2.2, fun hle => ?_, fun hle => ?_⟩
  · rw [key.1, max_eq_right (by linarith)]
    ring
  · rw [key.2.1, max_eq_right (by linarith)]
    ring

end Botbash

namespace Botbash

/-- Oracle whose square root is exact on the inputs the C1 scenarios
evaluate it at (squared distance 1). -/
def O1 : Oracle :=
  { trivOracle with sqrtF := fun q => if q = 1 then 1 else 0 }

/-- A spinner with its weapon active. -/
def cSpin : Robot :=
  { id := 6, isPlayer := true, position := ⟨0, 0⟩, velocity := ⟨0, 0⟩, rotation := 0,
    health := 100, maxHealth := 100, weaponActive := true, isDead := false,
    type := RobotType.spinner, stunnedUntil := 0 }

/-- An opponent whose health (4 = 100 - 6 * 16, reachable by six weapon
hits) is below the 16-point weapon hit. -/
def cLow : Robot :=
  { id := 7, isPlayer := false, position := ⟨1, 0⟩, velocity := ⟨0, 0⟩, rotation := 0,
    health := 4, maxHealth := 100, weaponActive := false, isDead := false,
    type := RobotType.tank, stunnedUntil := 0 }

/-- C1 counterexample: the claim's unclamped reading is false.  A tank
at reachable health 4 (= 100 - 6 x 16) hit by a weapon-active spinner
loses only its remaining 4 health, not the claimed 1 + WEAPON_DAMAGE =
16, because the code clamps health at the floor 0. -/
theorem C1_counterexample :
    cSpin.isDead = false ∧ cLow.isDead = false
    ∧ distanceTo O1 cSpin.position cLow.position < ROBOT_RADIUS * (21/10)
    ∧ cSpin.weaponActive = true ∧ cSpin.type = RobotType.spinner
    ∧ (collidePair O1 0 cSpin cLow).2.health = 0
    ∧ cLow.health - (collidePair O1 0 cSpin cLow).2.health ≠ 1 + WEAPON_DAMAGE := by
  refine ⟨rfl, rfl, ?_, rfl, rfl, ?_, ?_⟩
  · norm_num [distanceTo, vlength, vsub, O1, trivOracle, cSpin, cLow, ROBOT_RADIUS]
  · norm_num [collidePair, distanceTo, vlength, vsub, vadd, vscale, normalizeV,
      O1, trivOracle, cSpin, cLow, ROBOT_RADIUS, WEAPON_DAMAGE, KNOCKBACK_FORCE]
  · norm_num [collidePair, distanceTo, vlength, vsub, vadd, vscale, normalizeV,
      O1, trivOracle, cSpin, cLow, ROBOT_RADIUS, WEAPON_DAMAGE, KNOCKBACK_FORCE]

end Botbash

namespace Botbash

theorem C1_collision_damage_amended_witness :
    wPlayer.isDead = false ∧ wEnemy.isDead = false
    ∧ distanceTo O1 wPlayer.position wEnemy.position < ROBOT_RADIUS * (21/10)
    ∧ ((collidePair O1 0 wPlayer wEnemy).1.health = max 0 (wPlayer.health - damageFrom wEnemy)
      ∧ (collidePair O1 0 wPlayer wEnemy).2.health = max 0 (wEnemy.health - damageFrom wPlayer)
      ∧ (collidePair O1 0 wPlayer wEnemy).1.stunnedUntil = 0 + 1/5
      ∧ (collidePair O1 0 wPlayer wEnemy).2.stunnedUntil = 0 + 1/5
      ∧ (damageFrom wEnemy ≤ wPlayer.health →
          wPlayer.health - (collidePair O1 0 wPlayer wEnemy).1.health = damageFrom wEnemy)
      ∧ (damageFrom wPlayer ≤ wEnemy.health →
          wEnemy.health - (collidePair O1 0 wPlayer wEnemy).2.health = damageFrom wPlayer)) :=
  ⟨rfl, rfl,
   by norm_num [distanceTo, vlength, vsub, O1, trivOracle, wPlayer, wEnemy, ROBOT_RADIUS],
   C1_collision_damage_amended O1 0 wPlayer wEnemy rfl rfl
     (by norm_num [distanceTo, vlength, vsub, O1, trivOracle, wPlayer, wEnemy, ROBOT_RADIUS])⟩

end Botbash

namespace Botbash

theorem vadd_zero_vec (v : Vec2) : vadd v ⟨0, 0⟩ = v := by
  cases v
  simp [vadd]

theorem vscale_zero_vec (c : ℚ) : vscale c ⟨0, 0⟩ = (⟨0, 0⟩ : Vec2) := by
  simp [vscale]

theorem vsub_self_vec (v : Vec2) : vsub v v = (⟨0, 0⟩ : Vec2) := by
  simp [vsub]

/-- C7 (amended): when two alive colliding entities occupy an identical
position, the dependency's normalize maps the zero separation vector to
the zero vector (divide by `length() || 1`), so the pair's resolution is
fully defined but its separation and knockback are no-ops: positions and
velocities are unchanged, while damage and the mutual stun still apply.
The fallback is the zero vector, not a unit direction. -/
theorem C7_zero_normal_amended (O : Oracle) (now : ℚ) (r1 r2 : Robot)
    (hpos : r1.position = r2.position)
    (h1 : r1.isDead = false) (h2 : r2.isDead = false)
    (hsqrt : O.sqrtF 0 = 0) :
    normalizeV O (vsub r1.position r2.position) = ⟨0, 0⟩
    ∧ distanceTo O r1.position r2.position < ROBOT_RADIUS * (21/10)
    ∧ (collidePair O now r1 r2).1.position = r1.position
    ∧ (collidePair O now r1 r2).2.position = r2.position
    ∧ (collidePair O now r1 r2).1.velocity = r1.velocity
    ∧ (collidePair O now r1 r2).2.velocity = r2.velocity
    ∧ (collidePair O now r1 r2).1.health = max 0 (r1.health - damageFrom r2)
    ∧ (collidePair O now r1 r2).2.health = max 0 (r2.health - damageFrom r1)
    ∧ (collidePair O now r1 r2).1.stunnedUntil = now + 1/5
    ∧ (collidePair O now r1 r2).2.stunnedUntil = now + 1/5 := by
  have hz : vsub r1.position r2.position = (⟨0, 0⟩ : Vec2) := by
    rw [hpos, vsub_self_vec]
  have hlen : vlength O (⟨0, 0⟩ : Vec2) = 0 := by
    simpa [vlength] using hsqrt
  have hnorm : normalizeV O (vsub r1.position r2.position) = (⟨0, 0⟩ : Vec2) := by
    rw [hz]
    simp [normalizeV, hlen]
  have hdist : distanceTo O r1.position r2.position = 0 := by
    rw [distanceTo, hz, hlen]
  have htrig : distanceTo O r1.position r2.position < ROBOT_RADIUS * (21/10) := by
    rw [hdist]
    norm_num [ROBOT_RADIUS]
  have hc : (r1.isDead || r2.isDead) = false := by rw [h1, h2]; rfl
  refine ⟨hnorm, htrig, ?_⟩
  unfold collidePair
  rw [hc]
  dsimp only [Bool.false_eq_true, if_false]
  rw [if_pos htrig]
  rw [hnorm]
  simp [vscale_zero_vec, vadd_zero_vec, damageFrom]

end Botbash

namespace Botbash

/-- Two distinct robots parked at the same point. -/
def c7a : Robot :=
  { id := 8, isPlayer := true, position := ⟨2, 3⟩, velocity := ⟨0, 0⟩, rotation := 0,
    health := 50, maxHealth := 100, weaponActive := false, isDead := false,
    type := RobotType.tank, stunnedUntil := 0 }

def c7b : Robot :=
  { id := 9, isPlayer := false, position := ⟨2, 3⟩, velocity := ⟨0, 0⟩, rotation := 0,
    health := 50, maxHealth := 100, weaponActive := false, isDead := false,
    type := RobotType.wedge, stunnedUntil := 0 }

/-- C7 counterexample: at identical positions the collision fires, and
the computed normal is the zero vector (length 0, not a unit fallback
direction): no knockback and no separation result, refuting the claim
that a fallback *unit* normal in some fixed direction is used. -/
theorem C7_counterexample :
    c7a.position = c7b.position
    ∧ distanceTo trivOracle c7a.position c7b.position < ROBOT_RADIUS * (21/10)
    ∧ normalizeV trivOracle (vsub c7a.position c7b.position) = ⟨0, 0⟩
    ∧ ¬((normalizeV trivOracle (vsub c7a.position c7b.position)).x
          * (normalizeV trivOracle (vsub c7a.position c7b.position)).x
        + (normalizeV trivOracle (vsub c7a.position c7b.position)).z
          * (normalizeV trivOracle (vsub c7a.position c7b.position)).z = 1)
    ∧ (collidePair trivOracle 0 c7a c7b).1.velocity = c7a.velocity
    ∧ (collidePair trivOracle 0 c7a c7b).1.position = c7a.position
    ∧ (collidePair trivOracle 0 c7a c7b).1.health = c7a.health - 1 := by
  refine ⟨rfl, ?_, ?_, ?_, ?_, ?_, ?_⟩ <;>
    norm_num [collidePair, distanceTo, vlength, vsub, vadd, vscale, normalizeV,
      trivOracle, c7a, c7b, ROBOT_RADIUS, WEAPON_DAMAGE, KNOCKBACK_FORCE]

end Botbash

namespace Botbash

theorem C7_zero_normal_amended_witness :
    c7a.position = c7b.position ∧ c7a.isDead = false ∧ c7b.isDead = false
    ∧ trivOracle.sqrtF 0 = 0
    ∧ (normalizeV trivOracle (vsub c7a.position c7b.position) = ⟨0, 0⟩
      ∧ distanceTo trivOracle c7a.position c7b.position < ROBOT_RADIUS * (21/10)
      ∧ (collidePair trivOracle 0 c7a c7b).1.position = c7a.position
      ∧ (collidePair trivOracle 0 c7a c7b).2.position = c7b.position
      ∧ (collidePair trivOracle 0 c7a c7b).1.velocity = c7a.velocity
      ∧ (collidePair trivOracle 0 c7a c7b).2.velocity = c7b.velocity
      ∧ (collidePair trivOracle 0 c7a c7b).1.health = max 0 (c7a.health - damageFrom c7b)
      ∧ (collidePair trivOracle 0 c7a c7b).2.health = max 0 (c7b.health - damageFrom c7a)
      ∧ (collidePair trivOracle 0 c7a c7b).1.stunnedUntil = 0 + 1/5
      ∧ (collidePair trivOracle 0 c7a c7b).2.stunnedUntil = 0 + 1/5) :=
  ⟨rfl, rfl, rfl, rfl, C7_zero_normal_amended trivOracle 0 c7a c7b rfl rfl rfl rfl⟩

end Botbash

namespace Botbash

theorem abs_signQ_le_one (q : ℚ) : |signQ q| ≤ 1 := by
  unfold signQ
  split
  · norm_num
  · split
    · norm_num
    · norm_num

/-- C6 (amended): for every non-stunned AI-controlled entity each tick,
the signed angular difference to the bearing is wrapped into the CLOSED
interval [-pi, pi] (the source's two while loops can return -pi itself,
so the claimed half-open interval (-pi, pi] is off at that endpoint);
the facing changes by signQ(diff) * min(|diff|, TURN_SPEED * 0.3), hence
by at most 30 % of the player's turn rate and never past the remaining
difference; and the forward thrust impulse of magnitude scale
MOVE_SPEED * ENEMY_SPEED_MULT is added exactly when |diff| < 0.5 rad. -/
theorem C6_ai_steering_amended (O : Oracle) (now : ℚ) (pPos : Vec2) (i : Nat) (bot : Robot)
    (hpi : 0 < O.pi) (hstun : bot.stunnedUntil ≤ now) (hai : bot.isPlayer = false)
    (diff : ℚ)
    (hdiff : diff = wrapAngle O.pi
        (O.atan2F (normalizeV O (vsub pPos bot.position)).x
            (normalizeV O (vsub pPos bot.position)).z - bot.rotation)) :
    (-O.pi ≤ diff ∧ diff ≤ O.pi)
    ∧ (steerStage O now pPos i bot).rotation
        = bot.rotation + signQ diff * min |diff| (TURN_SPEED * (3/10))
    ∧ |(steerStage O now pPos i bot).rotation - bot.rotation| ≤ TURN_SPEED * (3/10)
    ∧ |(steerStage O now pPos i bot).rotation - bot.rotation| ≤ |diff|
    ∧ (¬(|diff| < 1/2) → (steerStage O now pPos i bot).velocity = bot.velocity)
    ∧ (|diff| < 1/2 → (steerStage O now pPos i bot).velocity
        = vadd bot.velocity (vscale (MOVE_SPEED * ENEMY_SPEED_MULT)
            ⟨O.sinF ((steerStage O now pPos i bot).rotation),
             O.cosF ((steerStage O now pPos i bot).rotation)⟩)) := by
  have hs : steerStage O now pPos i bot = aiSteer O i pPos bot := by
    unfold steerStage
    rw [if_pos hstun, hai]
    rfl
  subst hdiff
  have hrot : (steerStage O now pPos i bot).rotation
      = bot.rotation + signQ (wrapAngle O.pi
          (O.atan2F (normalizeV O (vsub pPos bot.position)).x
            (normalizeV O (vsub pPos bot.position)).z - bot.rotation))
        * min |wrapAngle O.pi
          (O.atan2F (normalizeV O (vsub pPos bot.position)).x
            (normalizeV O (vsub pPos bot.position)).z - bot.rotation)|
          (TURN_SPEED * (3/10)) := by
    rw [hs]
    rfl
  have hmem := wrapAngle_mem hpi
      (O.atan2F (normalizeV O (vsub pPos bot.position)).x
        (normalizeV O (vsub pPos bot.position)).z - bot.rotation)
  set D := wrapAngle O.pi
      (O.atan2F (normalizeV O (vsub pPos bot.position)).x
        (normalizeV O (vsub pPos bot.position)).z - bot.rotation) with hD
  have hmin0 : 0 ≤ min |D| (TURN_SPEED * (3/10)) :=
    le_min (abs_nonneg D) (by norm_num [TURN_SPEED])
  have hdelta : (steerStage O now pPos i bot).rotation - bot.rotation
      = signQ D * min |D| (TURN_SPEED * (3/10)) := by
    rw [hrot]
    ring
  have habs : |(steerStage O now pPos i bot).rotation - bot.rotation|
      ≤ min |D| (TURN_SPEED * (3/10)) := by
    rw [hdelta, abs_mul, abs_of_nonneg hmin0]
    calc |signQ D| * min |D| (TURN_SPEED * (3/10))
        ≤ 1 * min |D| (TURN_SPEED * (3/10)) :=
          mul_le_mul_of_nonneg_right (abs_signQ_le_one D) hmin0
      _ = min |D| (TURN_SPEED * (3/10)) := one_mul _
  refine ⟨⟨hmem.1, hmem.2⟩, hrot, habs.trans (min_le_right _ _), habs.trans (min_le_left _ _),
    fun hfar => ?_, fun hnear => ?_⟩
  · rw [hs]
    unfold aiSteer
    dsimp only
    rw [← hD, if_neg hfar]
  · rw [hrot, hs]
    unfold aiSteer
    dsimp only
    rw [← hD, if_pos hnear]

end Botbash

namespace Botbash

/-- An AI robot facing exactly away from the player (rotation = π while
the bearing is 0). -/
def bot6 : Robot :=
  { id := 10, isPlayer := false, position := ⟨0, 0⟩, velocity := ⟨0, 0⟩, rotation := MATH_PI,
    health := 100, maxHealth := 100, weaponActive := false, isDead := false,
    type := RobotType.tank, stunnedUntil := 0 }

/-- Oracle for the C6 scenario: the host π, the exact square root of 25,
and atan2(0, 1) = 0. -/
def O6c : Oracle :=
  { trivOracle with pi := MATH_PI, sqrtF := fun q => if q = 25 then 5 else 0 }

/-- C6 counterexample: the wrap's range claim "(-pi, pi]" fails at the
endpoint: a raw difference of exactly -pi passes through both loops
unchanged, so the wrapped difference is -pi, which is not in (-pi, pi],
and the AI then turns by -TURN_SPEED * 0.3 (towards -pi) instead of the
+pi direction the claimed interval would dictate. -/
theorem C6_counterexample :
    wrapAngle MATH_PI (-MATH_PI) = -MATH_PI
    ∧ ¬(-MATH_PI < wrapAngle MATH_PI (-MATH_PI))
    ∧ O6c.atan2F (normalizeV O6c (vsub ⟨0, 5⟩ bot6.position)).x
        (normalizeV O6c (vsub ⟨0, 5⟩ bot6.position)).z - bot6.rotation = -MATH_PI
    ∧ (aiSteer O6c 1 ⟨0, 5⟩ bot6).rotation = MATH_PI - TURN_SPEED * (3/10) := by
  have h1 : wrapAngle MATH_PI (-MATH_PI) = -MATH_PI :=
    wrapAngle_of_mem le_rfl (by norm_num [MATH_PI])
  have h3 : O6c.atan2F (normalizeV O6c (vsub ⟨0, 5⟩ bot6.position)).x
      (normalizeV O6c (vsub ⟨0, 5⟩ bot6.position)).z - bot6.rotation = -MATH_PI := by
    norm_num [O6c, trivOracle, bot6, normalizeV, vlength, vsub]
  refine ⟨h1, by rw [h1]; exact lt_irrefl _, h3, ?_⟩
  show (aiSteer O6c 1 ⟨0, 5⟩ bot6).rotation = MATH_PI - TURN_SPEED * (3/10)
  unfold aiSteer
  dsimp only
  rw [h3]
  have hpi6 : O6c.pi = MATH_PI := rfl
  rw [hpi6, h1]
  have hsign : signQ (-MATH_PI) = -1 := by
    unfold signQ
    rw [if_neg (by norm_num [MATH_PI]), if_pos (by norm_num [MATH_PI])]
  have hmin : min |(-MATH_PI)| (TURN_SPEED * (3/10)) = TURN_SPEED * (3/10) := by
    rw [abs_neg, abs_of_pos (by norm_num [MATH_PI])]
    exact min_eq_right (by norm_num [MATH_PI, TURN_SPEED])
  rw [hsign, hmin]
  show bot6.rotation + -1 * (TURN_SPEED * (3/10)) = MATH_PI - TURN_SPEED * (3/10)
  have : bot6.rotation = MATH_PI := rfl
  rw [this]
  ring

end Botbash

namespace Botbash

def O6w : Oracle := { trivOracle with pi := 3 }

theorem C6_ai_steering_amended_witness :
    0 < O6w.pi ∧ wEnemy.stunnedUntil ≤ (0:ℚ) ∧ wEnemy.isPlayer = false
    ∧ (0:ℚ) = wrapAngle O6w.pi
        (O6w.atan2F (normalizeV O6w (vsub ⟨0, 0⟩ wEnemy.position)).x
            (normalizeV O6w (vsub ⟨0, 0⟩ wEnemy.position)).z - wEnemy.rotation)
    ∧ (steerStage O6w 0 ⟨0, 0⟩ 1 wEnemy).rotation
        = wEnemy.rotation + signQ 0 * min |(0:ℚ)| (TURN_SPEED * (3/10)) := by
  have hpi : (0:ℚ) < O6w.pi := by norm_num [O6w, trivOracle]
  have hstun : wEnemy.stunnedUntil ≤ (0:ℚ) := by norm_num [wEnemy]
  have e : O6w.atan2F (normalizeV O6w (vsub ⟨0, 0⟩ wEnemy.position)).x
      (normalizeV O6w (vsub ⟨0, 0⟩ wEnemy.position)).z - wEnemy.rotation = 0 := by
    norm_num [O6w, trivOracle, wEnemy]
  have hdiff : (0:ℚ) = wrapAngle O6w.pi
      (O6w.atan2F (normalizeV O6w (vsub ⟨0, 0⟩ wEnemy.position)).x
          (normalizeV O6w (vsub ⟨0, 0⟩ wEnemy.position)).z - wEnemy.rotation) := by
    rw [e]
    exact (wrapAngle_of_mem (by norm_num [O6w, trivOracle]) (by norm_num [O6w, trivOracle])).symm
  exact ⟨hpi, hstun, rfl, hdiff,
    (C6_ai_steering_amended O6w 0 ⟨0, 0⟩ 1 wEnemy hpi hstun rfl 0 hdiff).2.1⟩

end Botbash

namespace Botbash

/-- No collision partner within the collision distance, for a two-robot
collection: the single pair the nested loops visit is farther apart than
2.1 x radius (vacuously true for other shapes). -/
def pairFar (O : Oracle) (l : List Robot) : Prop :=
  match l with
  | [r1, r2] => ¬(distanceTo O r1.position r2.position < ROBOT_RADIUS * (21/10))
  | _ => True

theorem integrate_of_zero_vel (b : Robot) (h : b.velocity = ⟨0, 0⟩) : integrate b = b := by
  unfold integrate
  rw [h, vadd_zero_vec, vscale_zero_vec, ← h]

theorem wallZ_eq_self_of_abs_le (b : Robot) (hz : |b.position.z| ≤ halfSize - ROBOT_RADIUS) :
    wallZ b = b := by
  obtain ⟨hz1, hz2⟩ := abs_le.mp hz
  unfold wallZ
  split
  · rw [if_neg (not_lt.mpr hz2), if_neg (not_lt.mpr (by linarith))]
  · rfl

theorem pitCheck_eq_self (b : Robot) (hx : |b.position.x| ≤ halfSize - ROBOT_RADIUS)
    (hz : |b.position.z| ≤ halfSize - ROBOT_RADIUS) : pitCheck b = b := by
  unfold pitCheck
  rw [if_neg]
  push_neg
  constructor
  · calc |b.position.x| ≤ halfSize - ROBOT_RADIUS := hx
      _ ≤ halfSize + 1/2 := by norm_num [halfSize, ROBOT_RADIUS, ARENA_SIZE]
  · calc |b.position.z| ≤ halfSize - ROBOT_RADIUS := hz
      _ ≤ halfSize + 1/2 := by norm_num [halfSize, ROBOT_RADIUS, ARENA_SIZE]

/-- A stunned, stationary robot inside the walls is a fixed point of the
whole per-robot movement pass. -/
theorem stepBot_frozen (O : Oracle) (now : ℚ) (pPos : Vec2) (i : Nat) (b : Robot)
    (hstun : now < b.stunnedUntil) (hvel : b.velocity = ⟨0, 0⟩)
    (hx : |b.position.x| ≤ halfSize - ROBOT_RADIUS)
    (hz : |b.position.z| ≤ halfSize - ROBOT_RADIUS) :
    stepBot O now pPos i b = b := by
  unfold stepBot
  split
  · rfl
  · have hs : steerStage O now pPos i b = b := by
      unfold steerStage
      rw [if_neg (not_le.mpr hstun)]
    rw [hs, integrate_of_zero_vel b hvel, resolveWalls, wallX_eq_self_of_abs_le b hx,
      wallZ_eq_self_of_abs_le b hz, pitCheck_eq_self b hx hz]

theorem decayBot_position (O : Oracle) (i : Nat) (b : Robot) :
    (decayBot O i b).position = b.position := by
  unfold decayBot
  split
  · rfl
  · rfl

theorem phase1_pair (O : Oracle) (now : ℚ) (a b : Robot) :
    phase1 O now [a, b] =
      [stepBot O now (playerPosOf [a, b]) 0 a,
       stepBot O now (playerPosOf [stepBot O now (playerPosOf [a, b]) 0 a, b]) 1 b] := rfl

end Botbash

namespace Botbash

theorem collideAll_pair (O : Oracle) (now : ℚ) (a b : Robot) :
    collideAll O now [a, b] = collideStep O now [a, b] 0 1 := rfl

theorem collideStep_pair_far (O : Oracle) (now : ℚ) (a b : Robot)
    (hfar : ¬(distanceTo O a.position b.position < ROBOT_RADIUS * (21/10))) :
    collideStep O now [a, b] 0 1 = [a, b] := by
  have hp : collidePair O now a b = (a, b) := by
    unfold collidePair
    split
    · rfl
    · dsimp only
      rw [if_neg hfar]
  show (([a, b].set 0 (collidePair O now a b).1).set 1 (collidePair O now a b).2) = [a, b]
  rw [hp]
  rfl

end Botbash

namespace Botbash

/-- The player of the C9 scenario, 5 units from the enemy. -/
def cPlayer9 : Robot :=
  { id := 11, isPlayer := true, position := ⟨0, 5⟩, velocity := ⟨0, 0⟩, rotation := 0,
    health := 100, maxHealth := 100, weaponActive := false, isDead := false,
    type := RobotType.spinner, stunnedUntil := 0 }

/-- A NON-stunned stationary AI robot already facing the player. -/
def cEnemy9 : Robot :=
  { id := 12, isPlayer := false, position := ⟨0, 0⟩, velocity := ⟨0, 0⟩, rotation := 0,
    health := 100, maxHealth := 100, weaponActive := false, isDead := false,
    type := RobotType.tank, stunnedUntil := 0 }

/-- Oracle for the C9 scenario: exact values of the host functions at the
points where the tick evaluates them (sin 0 = 0, cos 0 = 1,
atan2 0 1 = 0, sqrt 25 = 5, sqrt of (3123/625)^2). -/
def O9 : Oracle :=
  { sinF := fun _ => 0, cosF := fun _ => 1, atan2F := fun _ _ => 0,
    sqrtF := fun q => if q = 25 then 5 else if q = 9753129/390625 then 3123/625 else 0,
    pi := MATH_PI, keys := noKeys,
    randWeaponOn := fun _ => false, randWeaponOff := fun _ => false }

/-- The enemy after one movement pass: thrust moved it 2/625 forward. -/
def E9 : Robot :=
  { id := 12, isPlayer := false, position := ⟨0, 2/625⟩, velocity := ⟨0, 46/15625⟩,
    rotation := 0, health := 100, maxHealth := 100, weaponActive := false, isDead := false,
    type := RobotType.tank, stunnedUntil := 0 }

theorem c9phase1_eval :
    phase1 O9 0 [cPlayer9, cEnemy9] = [cPlayer9, E9] := by
  norm_num [phase1, phase1Aux, stepBot, steerStage, playerSteer, aiSteer, playerPosOf,
    integrate, resolveWalls, wallX, wallZ, pitCheck, vadd, vsub, vscale, vlength,
    distanceTo, normalizeV, signQ, wrapAngle_of_mem, O9, noKeys, cPlayer9, cEnemy9, E9,
    MATH_PI, ARENA_SIZE, WALL_GAP, ROBOT_RADIUS, MOVE_SPEED, ENEMY_SPEED_MULT, TURN_SPEED,
    FRICTION, halfSize, wallRange, List.find?, abs_le, abs_lt]

/-- C9 counterexample: the claim as stated is false for a NON-stunned AI
entity.  The enemy has zero velocity, no input keys are held, it sits
inside the walls, and no collision partner is within reach; yet its AI
steering adds forward thrust (it already faces the player), so one tick
moves it from (0, 0) to (0, 2/625). -/
theorem C9_counterexample :
    cEnemy9.velocity = ⟨0, 0⟩
    ∧ O9.keys = noKeys
    ∧ |cEnemy9.position.x| ≤ halfSize - ROBOT_RADIUS
    ∧ |cEnemy9.position.z| ≤ halfSize - ROBOT_RADIUS
    ∧ pairFar O9 (phase1 O9 0 [cPlayer9, cEnemy9])
    ∧ (tick O9 0 GameState.PLAYING [cPlayer9, cEnemy9]).2.map Robot.position
        = [⟨0, 5⟩, ⟨0, 2/625⟩]
    ∧ cEnemy9.position = ⟨0, 0⟩
    ∧ (⟨0, 2/625⟩ : Vec2) ≠ (⟨0, 0⟩ : Vec2) := by
  have hfar2 : ¬(distanceTo O9 cPlayer9.position E9.position < ROBOT_RADIUS * (21/10)) := by
    norm_num [distanceTo, vlength, vsub, O9, cPlayer9, E9, ROBOT_RADIUS]
  have hfar : pairFar O9 (phase1 O9 0 [cPlayer9, cEnemy9]) := by
    rw [c9phase1_eval]
    exact hfar2
  refine ⟨rfl, rfl, by norm_num [cEnemy9, halfSize, ROBOT_RADIUS, ARENA_SIZE],
    by norm_num [cEnemy9, halfSize, ROBOT_RADIUS, ARENA_SIZE], hfar, ?_, rfl,
    by simp [Vec2.mk.injEq]⟩
  unfold tick
  rw [if_pos rfl]
  have hfind : [cPlayer9, cEnemy9].find? (fun r => r.isPlayer) = some cPlayer9 := by
    simp [List.find?, cPlayer9]
  rw [hfind]
  dsimp only
  rw [if_neg (by simp [cPlayer9]), if_neg (by simp [List.filter, cPlayer9, cEnemy9])]
  rw [c9phase1_eval, collideAll_pair, collideStep_pair_far O9 0 cPlayer9 E9 hfar2]
  simp [decayAux, decayBot, O9, cPlayer9, cEnemy9, E9]

end Botbash

namespace Botbash

/-- A stunned stationary enemy (stun window open until t = 1). -/
def wStun : Robot :=
  { id := 13, isPlayer := false, position := ⟨0, 0⟩, velocity := ⟨0, 0⟩, rotation := 0,
    health := 100, maxHealth := 100, weaponActive := false, isDead := false,
    type := RobotType.wedge, stunnedUntil := 1 }

def O9w : Oracle :=
  { trivOracle with sqrtF := fun q => if q = 25 then 5 else 0 }

end Botbash

namespace Botbash

/-- The pair (i, j) does not resolve on the current array: a member is
missing or dead, or the distance test fails. -/
def pairMiss (O : Oracle) (l : List Robot) (i j : Nat) : Prop :=
  match l[i]?, l[j]? with
  | some a, some b => a.isDead = true ∨ b.isDead = true
      ∨ ¬(distanceTo O a.position b.position < ROBOT_RADIUS * (21/10))
  | _, _ => True

/-- The pairs the nested collision loops visit, in source order. -/
def pairList (n : Nat) : List (Nat × Nat) :=
  (List.range n).flatMap (fun i => (List.range' (i + 1) (n - (i + 1))).map (fun j => (i, j)))

/-- "No collision partner within the collision distance" for the robot at
index `k`, stated along the sequential pass itself: every pair involving
`k` misses on the array state current when that pair is checked. -/
def FarAt (O : Oracle) (now : ℚ) (k : Nat) : List Robot → List (Nat × Nat) → Prop
  | _, [] => True
  | l, p :: ps => ((p.1 = k ∨ p.2 = k) → pairMiss O l p.1 p.2)
      ∧ FarAt O now k (collideStep O now l p.1 p.2) ps

theorem set_getElem_self : ∀ (l : List Robot) (i : Nat) (a : Robot),
    l[i]? = some a → l.set i a = l := by
  intro l
  induction l with
  | nil =>
    intro i a h
    cases h
  | cons hd t ih =>
    intro i a h
    cases i with
    | zero =>
      simp only [List.getElem?_cons_zero] at h
      cases h
      rfl
    | succ n =>
      simp only [List.set]
      rw [ih n a (by simpa using h)]

/-- The nested loops, flattened into one fold over the visited pairs. -/
theorem collideAll_eq_passFrom (O : Oracle) (now : ℚ) (l : List Robot) :
    collideAll O now l =
      (pairList l.length).foldl (fun acc p => collideStep O now acc p.1 p.2) l := by
  unfold collideAll pairList
  have h1 : ∀ (xs : List Nat) (acc : List Robot),
      ((xs.flatMap (fun i => (List.range' (i + 1) (l.length - (i + 1))).map
          (fun j => (i, j)))).foldl (fun acc p => collideStep O now acc p.1 p.2) acc)
      = xs.foldl (fun acc i => (List.range' (i + 1) (l.length - (i + 1))).foldl
          (fun acc2 j => collideStep O now acc2 i j) acc) acc := by
    intro xs
    induction xs with
    | nil => intro acc; rfl
    | cons x t ih =>
      intro acc
      rw [List.flatMap_cons, List.foldl_append, List.foldl_map, ih, List.foldl_cons]
  exact (h1 (List.range l.length) l).symm

/-- One loop iteration leaves index `k` unchanged provided any pair
involving `k` misses (pairs not involving `k` write other slots only). -/
theorem collideStep_getElem_eq (O : Oracle) (now : ℚ) (l : List Robot) (i j k : Nat)
    (h : (i = k ∨ j = k) → pairMiss O l i j) :
    (collideStep O now l i j)[k]? = l[k]? := by
  unfold collideStep
  rcases hi : l[i]? with _ | a
  · rcases hj : l[j]? with _ | b
    · rfl
    · rfl
  · rcases hj : l[j]? with _ | b
    · rfl
    · by_cases hk : i = k ∨ j = k
      · have hm : a.isDead = true ∨ b.isDead = true
            ∨ ¬(distanceTo O a.position b.position < ROBOT_RADIUS * (21/10)) := by
          have hm0 := h hk
          unfold pairMiss at hm0
          rw [hi, hj] at hm0
          exact hm0
        have hp : collidePair O now a b = (a, b) := by
          rcases hm with hd | hd | hfar
          · unfold collidePair
            rw [if_pos (by rw [hd]; rfl)]
          · unfold collidePair
            rw [if_pos (by rw [hd, Bool.or_true])]
          · unfold collidePair
            split
            · rfl
            · dsimp only
              rw [if_neg hfar]
        show ((l.set i (collidePair O now a b).1).set j (collidePair O now a b).2)[k]? = l[k]?
        rw [hp]
        rw [set_getElem_self l i a hi, set_getElem_self l j b hj]
      · push_neg at hk
        show ((l.set i (collidePair O now a b).1).set j (collidePair O now a b).2)[k]? = l[k]?
        rw [List.getElem?_set_ne hk.2, List.getElem?_set_ne hk.1]

theorem passFrom_getElem (O : Oracle) (now : ℚ) (k : Nat) :
    ∀ (ps : List (Nat × Nat)) (l : List Robot), FarAt O now k l ps →
      ((ps.foldl (fun acc p => collideStep O now acc p.1 p.2) l))[k]? = l[k]? := by
  intro ps
  induction ps with
  | nil =>
    intro l _
    rfl
  | cons p ps ih =>
    intro l hfar
    obtain ⟨h1, h2⟩ := hfar
    rw [List.foldl_cons]
    rw [ih (collideStep O now l p.1 p.2) h2]
    exact collideStep_getElem_eq O now l p.1 p.2 k h1

end Botbash

namespace Botbash

/-- The movement pass extends its processed prefix only at the end. -/
theorem phase1Aux_prefix (O : Oracle) (now : ℚ) :
    ∀ (l done : List Robot) (i : Nat), ∃ s, phase1Aux O now i done l = done ++ s := by
  intro l
  induction l with
  | nil =>
    intro done i
    exact ⟨[], by simp [phase1Aux]⟩
  | cons hd rest ih =>
    intro done i
    obtain ⟨s, hs⟩ :=
      ih (done ++ [stepBot O now (playerPosOf (done ++ hd :: rest)) i hd]) (i + 1)
    refine ⟨stepBot O now (playerPosOf (done ++ hd :: rest)) i hd :: s, ?_⟩
    rw [phase1Aux, hs, List.append_assoc, List.singleton_append]

/-- The movement pass per-index characterisation: the robot at index `k`
is replaced by `stepBot` applied to it, for some player position read at
its turn. -/
theorem phase1Aux_getElem (O : Oracle) (now : ℚ) :
    ∀ (l done : List Robot) (i k : Nat) (b : Robot), l[k]? = some b →
      ∃ p, (phase1Aux O now i done l)[done.length + k]? = some (stepBot O now p (i + k) b) := by
  intro l
  induction l with
  | nil =>
    intro done i k b hb
    cases hb
  | cons hd rest ih =>
    intro done i k b hb
    cases k with
    | zero =>
      simp only [List.getElem?_cons_zero] at hb
      cases hb
      refine ⟨playerPosOf (done ++ hd :: rest), ?_⟩
      obtain ⟨s, hs⟩ :=
        phase1Aux_prefix O now rest
          (done ++ [stepBot O now (playerPosOf (done ++ hd :: rest)) i hd]) (i + 1)
      rw [phase1Aux, hs, List.append_assoc, List.singleton_append,
        List.getElem?_append_right (by omega)]
      simp
    | succ n =>
      simp only [List.getElem?_cons_succ] at hb
      obtain ⟨p, hp⟩ :=
        ih (done ++ [stepBot O now (playerPosOf (done ++ hd :: rest)) i hd]) (i + 1) n b hb
      refine ⟨p, ?_⟩
      rw [phase1Aux]
      have h1 : done.length + (n + 1) =
          (done ++ [stepBot O now (playerPosOf (done ++ hd :: rest)) i hd]).length + n := by
        simp [List.length_append]
        omega
      have h2 : i + (n + 1) = i + 1 + n := by omega
      rw [h1, h2]
      exact hp

theorem phase1_getElem (O : Oracle) (now : ℚ) (robots : List Robot) (k : Nat) (b : Robot)
    (hk : robots[k]? = some b) :
    ∃ p, (phase1 O now robots)[k]? = some (stepBot O now p k b) := by
  simpa [phase1] using phase1Aux_getElem O now robots [] 0 k b hk

theorem decayAux_getElem (O : Oracle) :
    ∀ (l : List Robot) (i k : Nat),
      (decayAux O i l)[k]? = (l[k]?).map (fun b => decayBot O (i + k) b) := by
  intro l
  induction l with
  | nil =>
    intro i k
    simp [decayAux]
  | cons hd t ih =>
    intro i k
    cases k with
    | zero => simp [decayAux]
    | succ n =>
      simp only [decayAux, List.getElem?_cons_succ]
      rw [ih (i + 1) n]
      have : i + 1 + n = i + (n + 1) := by omega
      rw [this]

end Botbash

namespace Botbash

/-- C9 (amended): an entity at any index of any match collection that is
stunned (so its steering is suppressed), has zero velocity, sits within
the walls (so no clamp applies), and whose collision pairs all miss at
the moment the sequential pass checks them, keeps its position across
one full tick, in any match state. -/
theorem C9_frozen_position_amended (O : Oracle) (now : ℚ) (gs : GameState)
    (robots : List Robot) (k : Nat) (b : Robot)
    (hk : robots[k]? = some b)
    (hstun : now < b.stunnedUntil) (hvel : b.velocity = ⟨0, 0⟩)
    (hx : |b.position.x| ≤ halfSize - ROBOT_RADIUS)
    (hz : |b.position.z| ≤ halfSize - ROBOT_RADIUS)
    (hfar : FarAt O now k (phase1 O now robots) (pairList (phase1 O now robots).length)) :
    ∃ b2, ((tick O now gs robots).2)[k]? = some b2 ∧ b2.position = b.position := by
  by_cases hgs : gs = GameState.PLAYING
  · subst hgs
    unfold tick
    rw [if_pos rfl]
    cases hf : robots.find? (fun r => r.isPlayer) with
    | none => exact ⟨b, hk, rfl⟩
    | some p =>
      dsimp only
      by_cases hpd : p.isDead = true
      · rw [if_pos hpd]
        exact ⟨b, hk, rfl⟩
      · rw [if_neg hpd]
        by_cases hempty : (robots.filter (fun r => !r.isPlayer && !r.isDead)).isEmpty = true
        · rw [if_pos hempty]
          exact ⟨b, hk, rfl⟩
        · rw [if_neg hempty]
          obtain ⟨pp, hph⟩ := phase1_getElem O now robots k b hk
          have hb1 : (phase1 O now robots)[k]? = some b := by
            rw [hph, stepBot_frozen O now pp k b hstun hvel hx hz]
          have hcoll : (collideAll O now (phase1 O now robots))[k]? = some b := by
            rw [collideAll_eq_passFrom, passFrom_getElem O now k _ _ hfar, hb1]
          refine ⟨decayBot O k b, ?_, decayBot_position O k b⟩
          show (decayAux O 0 (collideAll O now (phase1 O now robots)))[k]? =
            some (decayBot O k b)
          rw [decayAux_getElem, hcoll]
          simp
  · refine ⟨b, ?_, rfl⟩
    unfold tick
    rw [if_neg hgs]
    exact hk

end Botbash

namespace Botbash

theorem c9wphase1_eval : phase1 O9w 0 [cPlayer9, wStun] = [cPlayer9, wStun] := by
  norm_num [phase1, phase1Aux, stepBot, steerStage, playerSteer, aiSteer, playerPosOf,
    integrate, resolveWalls, wallX, wallZ, pitCheck, vadd, vsub, vscale, vlength,
    distanceTo, normalizeV, signQ, O9w, trivOracle, noKeys, cPlayer9, wStun,
    ARENA_SIZE, WALL_GAP, ROBOT_RADIUS, MOVE_SPEED, ENEMY_SPEED_MULT, TURN_SPEED,
    FRICTION, halfSize, wallRange, List.find?, abs_le, abs_lt]

theorem C9_frozen_position_amended_witness :
    ([cPlayer9, wStun][1]? = some wStun)
    ∧ (0:ℚ) < wStun.stunnedUntil ∧ wStun.velocity = ⟨0, 0⟩
    ∧ |wStun.position.x| ≤ halfSize - ROBOT_RADIUS
    ∧ |wStun.position.z| ≤ halfSize - ROBOT_RADIUS
    ∧ FarAt O9w 0 1 (phase1 O9w 0 [cPlayer9, wStun])
        (pairList (phase1 O9w 0 [cPlayer9, wStun]).length)
    ∧ ∃ b2, ((tick O9w 0 GameState.PLAYING [cPlayer9, wStun]).2)[1]? = some b2
        ∧ b2.position = wStun.position := by
  have hb1 : |wStun.position.x| ≤ halfSize - ROBOT_RADIUS := by
    norm_num [wStun, halfSize, ROBOT_RADIUS, ARENA_SIZE]
  have hb2 : |wStun.position.z| ≤ halfSize - ROBOT_RADIUS := by
    norm_num [wStun, halfSize, ROBOT_RADIUS, ARENA_SIZE]
  have hstun : (0:ℚ) < wStun.stunnedUntil := by norm_num [wStun]
  have hfar : FarAt O9w 0 1 (phase1 O9w 0 [cPlayer9, wStun])
      (pairList (phase1 O9w 0 [cPlayer9, wStun]).length) := by
    rw [c9wphase1_eval]
    show FarAt O9w 0 1 [cPlayer9, wStun] [(0, 1)]
    refine ⟨fun _ => ?_, trivial⟩
    show cPlayer9.isDead = true ∨ wStun.isDead = true
      ∨ ¬(distanceTo O9w cPlayer9.position wStun.position < ROBOT_RADIUS * (21/10))
    right
    right
    norm_num [distanceTo, vlength, vsub, O9w, trivOracle, cPlayer9, wStun, ROBOT_RADIUS]
  exact ⟨rfl, hstun, rfl, hb1, hb2, hfar,
    C9_frozen_position_amended O9w 0 GameState.PLAYING [cPlayer9, wStun] 1 wStun rfl hstun rfl hb1 hb2 hfar⟩

end Botbash
